import Mathlib

/-!
Verification of the query/locate/extract engine of `dpy_debugger`
(`src/__main__.py`, class `ParserV2`).

The development shallowly embeds the Python code:

* Python string primitives (`find`, `rfind`, slicing, `split`, `splitlines`,
  `strip`, `startswith`, `"\n".join`) are modelled as structural recursions on
  `List Char` / `List String`, with CPython semantics on the ASCII inputs the
  program works on (including negative-index slice adjustment for
  `text[.. : text.rfind(")")]` when `rfind` returns `-1`).
* The syntax tree handed over by `ast.parse` (an external capability for the
  engine) is modelled by `Node`; only the `Module`/`ClassDef`/`FunctionDef`/
  `AsyncFunctionDef` skeleton matters because every use in the engine filters
  with `isinstance(..., (FunctionDef, AsyncFunctionDef, ClassDef))`.
  `ast.walk`'s breadth-first traversal is `walkAux`, fueled: any fuel at least
  the number of nodes gives the complete traversal.
* Generators are modelled as functions producing the full (finite) list of
  yielded values; the `return` statements that abort a generator early are
  modelled with `Except`, the `error` constructor carrying the state at the
  abort point.
* `parse_attributes` returns `Except PyErr ...`; `PyErr` separates `ValueError`
  from `KeyError`/`IndexError` so that claims about which inputs raise a
  *ValueError* can be settled exactly.
* The unbounded `while queue:` loop of `get_all_parent_classes` (which does not
  terminate on cyclic inheritance) is fueled; `none` models non-termination
  within the given budget.

Concrete scenario inputs are given as Python source strings together with the
`Node` skeleton that `ast.parse` produces for them (line numbers as CPython
reports them: `lineno` 1-based first line, `end_lineno` 1-based last line).
-/

set_option autoImplicit false
set_option maxRecDepth 10000

namespace Dpy

/-! ## Python string primitives -/

/-- `chListIsPre pre s` tests that `s` begins with `pre` (character lists). -/
def chListIsPre : List Char → List Char → Bool
  | [], _ => true
  | _ :: _, [] => false
  | a :: as, b :: bs => if a = b then chListIsPre as bs else false

/-- Python `s.startswith(pre)`. -/
def pyStartsWith (s pre : String) : Bool :=
  chListIsPre pre.data s.data

/-- Helper for `pyFind`: first index (from `i`) where `sub` occurs, else `-1`. -/
def pyFindAux (sub : List Char) : List Char → Nat → Int
  | [], i => if sub = [] then (i : Int) else (-1 : Int)
  | c :: rest, i =>
    if chListIsPre sub (c :: rest) = true then (i : Int)
    else pyFindAux sub rest (i + 1)

/-- Python `s.find(sub)`. -/
def pyFind (s sub : String) : Int := pyFindAux sub.data s.data 0

/-- Helper for `pyRFind`: highest index where `sub` occurs, else `best`. -/
def pyRFindAux (sub : List Char) : List Char → Nat → Int → Int
  | [], i, best => if sub = [] then (i : Int) else best
  | c :: rest, i, best =>
    pyRFindAux sub rest (i + 1)
      (if chListIsPre sub (c :: rest) = true then (i : Int) else best)

/-- Python `s.rfind(sub)`. -/
def pyRFind (s sub : String) : Int := pyRFindAux sub.data s.data 0 (-1)

/-- Python slice-index adjustment: negative indices count from the end,
positive ones are clamped to the length. -/
def pyAdjIdx (n : Nat) (i : Int) : Nat :=
  if i < 0 then (i + n).toNat else min i.toNat n

/-- Python `xs[a:b]` for possibly negative bounds. -/
def pySliceList {α : Type} (xs : List α) (a b : Int) : List α :=
  (xs.take (pyAdjIdx xs.length b)).drop (pyAdjIdx xs.length a)

/-- Python `xs[a:b]` for non-negative bounds (list or line slicing). -/
def sliceNat {α : Type} (xs : List α) (a b : Nat) : List α :=
  (xs.take b).drop a

/-- Drop leading characters satisfying `p`. -/
def dropLeading (p : Char → Bool) : List Char → List Char
  | [] => []
  | c :: rest => if p c then dropLeading p rest else c :: rest

/-- Strip characters satisfying `p` from both ends. -/
def stripBothWith (p : Char → Bool) (cs : List Char) : List Char :=
  (dropLeading p (dropLeading p cs).reverse).reverse

/-- Python whitespace as found in the analysed sources. -/
def isPyWS (c : Char) : Bool :=
  (c == ' ') || (c == '\t') || (c == '\n') || (c == '\r') || (c == '\x0b') || (c == '\x0c')

/-- Python `s.strip()` (also `s.lstrip().rstrip()`). -/
def pyStrip (s : String) : String := String.mk (stripBothWith isPyWS s.data)

/-- Python `s.strip("()")`. -/
def pyStripParens (s : String) : String :=
  String.mk (stripBothWith (fun c => (c == '(') || (c == ')')) s.data)

/-- Helper for `pySplit`; the fuel is the length of the remaining input, so the
zero-fuel case is unreachable for the initial call. -/
def pySplitAux (sep : List Char) : Nat → List Char → List Char → List String
  | _, [], cur => [String.mk cur.reverse]
  | 0, s, cur => [String.mk (cur.reverse ++ s)]
  | fuel + 1, c :: rest, cur =>
    if chListIsPre sep (c :: rest) = true ∧ sep ≠ [] then
      String.mk cur.reverse :: pySplitAux sep fuel (List.drop (sep.length - 1) rest) []
    else pySplitAux sep fuel rest (c :: cur)

/-- Python `s.split(sep)` for a non-empty separator. -/
def pySplit (s sep : String) : List String :=
  pySplitAux sep.data s.data.length s.data []

/-- Python `s.splitlines()` for strings whose only line break is `"\n"`:
split on `"\n"` and drop the piece after a final newline. -/
def pySplitlines (s : String) : List String :=
  if s.data = [] then []
  else
    let l := pySplit s "\n"
    if l.getLast? = some "" then l.dropLast else l

/-- Python `"\n".join(lines)`. -/
def joinLines : List String → String
  | [] => ""
  | [l] => l
  | l :: rest => l ++ "\n" ++ joinLines rest

/-- Python `lines[i]`; the engine only indexes in bounds on real inputs, the
default keeps the model total. -/
def getLine (lines : List String) (i : Nat) : String := lines.getD i ""

/-! ## `parse_attributes` (query descriptor normalizer, lines 202-243) -/

/-- The exceptions `parse_attributes` can raise. -/
inductive PyErr where
  | valueError (msg : String)
  | keyError
  | indexError
  deriving DecidableEq

/-- The `index` argument of `parse_attributes`: a dotted-path string or a
structured `{"class": ..., "function": ...}` descriptor. -/
inductive PyIndex where
  | str (s : String)
  | dict (d : List (String × String))
  deriving DecidableEq

/-- Whether a `PyIndex` is the structured (dict) form. -/
def PyIndex.isDict : PyIndex → Bool
  | .dict _ => true
  | .str _ => false

/-- Python dict lookup (keys are unique, first match). -/
def dictLookup (d : List (String × String)) (k : String) : Option String :=
  (d.find? (fun p => decide (p.1 = k))).map (fun p => p.2)

/-- `index.split(".")` — the `attributes` list of `parse_attributes`. -/
def pyAttrs (s : String) : List String := pySplit s "."

/-- `attributes.remove("discord")` raises iff `"discord"` is not an element;
the `remove` call runs only when `attributes[0].startswith("discord")`. -/
def removeFails (s : String) : Bool :=
  pyStartsWith (pyAttrs s).headI "discord" && decide ("discord" ∉ pyAttrs s)

/-- Python `list.remove`: drop the first occurrence. -/
def pyListRemove (a : String) : List String → List String
  | [] => []
  | b :: rest => if b = a then rest else b :: pyListRemove a rest

/-- The `attributes` list after the conditional namespace-stripping step. -/
def strippedAttrs (s : String) : List String :=
  if pyStartsWith (pyAttrs s).headI "discord" = true
  then pyListRemove "discord" (pyAttrs s)
  else pyAttrs s

/-- `ParserV2.parse_attributes(index, exact)` (the `instance=None` path, which
returns the canonical `(target, enclosing_class, exact)` triple). -/
def parseAttributes (index : PyIndex) (exact : Bool) :
    Except PyErr (String × Option String × Bool) :=
  if exact then
    match index with
    | .dict _ => Except.error (PyErr.valueError "Cannot be exact and use attributes!")
    | .str s => Except.ok (s, none, true)
  else
    match index with
    | .dict d =>
      match dictLookup d "function" with
      | some r => Except.ok (pyStripParens r, dictLookup d "class", false)
      | none =>
        match dictLookup d "class" with
        | some r => Except.ok (pyStripParens r, none, false)
        | none => Except.error PyErr.keyError
    | .str s =>
      if removeFails s = true then
        Except.error (PyErr.valueError "list.remove(x): x not in list")
      else
        if (strippedAttrs s).length = 2 then
          match (strippedAttrs s).headI.data with
          | [] => Except.error PyErr.indexError
          | ch :: _ =>
            Except.ok (pyStripParens ((strippedAttrs s).getD 1 ""),
              if ch.isUpper then some (strippedAttrs s).headI else none, false)
        else if (strippedAttrs s).length = 1 then
          Except.ok (pyStripParens (strippedAttrs s).headI, none, false)
        else Except.error (PyErr.valueError ("Unable to parse '" ++ s ++ "'"))

/-- Whether a `parse_attributes` outcome is a raised `ValueError`. -/
def isValueError {α : Type} : Except PyErr α → Bool
  | Except.error (PyErr.valueError _) => true
  | _ => false

/-- The exact condition under which `parse_attributes` raises a `ValueError`:
exact mode with a structured descriptor; a failing namespace-`remove`; or a
segment count after stripping that is neither one nor two. -/
def c3ErrCond (index : PyIndex) (exact : Bool) : Bool :=
  if exact then index.isDict
  else
    match index with
    | .dict _ => false
    | .str s =>
      removeFails s ||
        (decide ((strippedAttrs s).length ≠ 1) && decide ((strippedAttrs s).length ≠ 2))

/-! ## The syntax tree (external `ast` capability) -/

/-- The node kinds the engine distinguishes (`isinstance` checks). -/
inductive NodeKind where
  | module
  | classDef
  | functionDef
  | asyncFunctionDef
  deriving DecidableEq

/-- Skeleton of a CPython `ast` node: kind, `name`, `lineno` (1-based first
line), `end_lineno` (1-based last line), and the definition statements of its
body.  Non-definition statements and expressions never pass the engine's
`isinstance` filters, so only the definition skeleton is kept. -/
inductive Node where
  | mk (kind : NodeKind) (name : String) (lineno : Nat) (endLineno : Nat)
       (body : List Node)

/-- The node's kind. -/
def Node.kind : Node → NodeKind
  | .mk k _ _ _ _ => k

/-- The node's `name`. -/
def Node.name : Node → String
  | .mk _ n _ _ _ => n

/-- The node's `lineno` (1-based, first line). -/
def Node.lineno : Node → Nat
  | .mk _ _ l _ _ => l

/-- The node's `end_lineno` (1-based, last line). -/
def Node.endLineno : Node → Nat
  | .mk _ _ _ e _ => e

/-- The node's body (definition statements only). -/
def Node.body : Node → List Node
  | .mk _ _ _ _ b => b

/-- `ast.walk`: breadth-first traversal with a FIFO queue.  Fueled; any fuel at
least the total number of nodes yields the complete traversal (each step
consumes one queue element). -/
def walkAux : Nat → List Node → List Node
  | _, [] => []
  | 0, _ => []
  | fuel + 1, n :: rest => n :: walkAux fuel (rest ++ n.body)

/-- `self._node_mapping`: the dict comprehension over `ast.walk` keeping
`ClassDef` nodes keyed by name.  Represented as the insertion-ordered
association list; `mapGet` encodes the dict's last-write-wins lookup. -/
def nodeMapping (fuel : Nat) (data : Node) : List (String × Node) :=
  (walkAux fuel [data]).filterMap
    (fun n => if n.kind = NodeKind.classDef then some (n.name, n) else none)

/-- Python dict lookup on `nodeMapping`: the *last* binding for a duplicated
class name wins (later `ClassDef`s shadow earlier ones). -/
def mapGet (m : List (String × Node)) (k : String) : Option Node :=
  match m.reverse.find? (fun p => decide (p.1 = k)) with
  | some p => some p.2
  | none => none

/-! ## Parent chain resolver (lines 50-75) -/

/-- `ParserV2.filter_parent_classes(text)`: the substring of the class header
line between the first `(` and the last `)`, split on `", "`, keeping only
names that are keys of the node mapping. -/
def filterParentClasses (mapping : List (String × Node)) (text : String) :
    List String :=
  (pySplit (String.mk (pySliceList text.data (pyFind text "(" + 1) (pyRFind text ")")))
      ", ").filter (fun p => (mapGet mapping p).isSome)

/-- `ParserV2.get_all_parent_classes(subclasses, current_nodes)`: breadth-first
work-queue expansion.  The Python loop does not terminate on inheritance
cycles; the fuel bounds the number of queue pops and `none` reports an
exhausted budget. -/
def getAllParentClassesFuel (mapping : List (String × Node)) (lines : List String) :
    Nat → List String → List Node → Option (List Node)
  | _, [], acc => some acc
  | 0, _ :: _, _ => none
  | fuel + 1, sub :: queue, acc =>
    match mapGet mapping sub with
    | none => getAllParentClassesFuel mapping lines fuel queue acc
    | some n =>
      let ln := if n.lineno = 0 then 1 else n.lineno
      let parents := filterParentClasses mapping (getLine lines (ln - 1))
      getAllParentClassesFuel mapping lines fuel (queue ++ parents) (acc ++ [n])

/-! ## Exact mode of `parse_data` (lines 101-153)

The generator's mutable state is `ExactSt`: the `already_searched` set (kept as
a list that is only ever extended after a membership guard, so its length is
the set's cardinality) and the list of yields so far.  Each yield is recorded
together with the tuple added to `already_searched` at that same program
point — `(lineno, end_lineno)` (1-based) for the nested in-class search,
`(lineno - 1, end_lineno)` for the direct yield.  `parse_data`'s output is the
projection to the yields.  `Except.error` models the generator-aborting
`return` statements. -/

/-- Exact-mode generator state. -/
structure ExactSt where
  searched : List (Nat × Nat)
  acc : List ((Nat × Nat) × (String × Nat))

/-- The state carried out of a loop whether it finished (`ok`) or hit a
generator-aborting `return` (`error`). -/
def unwrapSt : Except ExactSt ExactSt → ExactSt
  | Except.ok st => st
  | Except.error st => st

/-- The inner `for i in range(func_start, func_end)` loop of the nested
in-class search: count guard, dedup guard on the 1-based
`(func_node.lineno, func_node.end_lineno)` key, then the *unstripped* literal
comparison `to_seach_for == new_lines[i]`. -/
def exactInnerLoop (tsf : String) (newLines : List String) (count : Nat)
    (fkey : Nat × Nat) (fs fe : Nat) :
    List Nat → ExactSt → Except ExactSt ExactSt
  | [], st => Except.ok st
  | i :: rest, st =>
    if st.searched.length = count then Except.error st
    else if fkey ∈ st.searched then
      exactInnerLoop tsf newLines count fkey fs fe rest st
    else if tsf = getLine newLines i then
      exactInnerLoop tsf newLines count fkey fs fe rest
        ⟨fkey :: st.searched,
          st.acc ++ [(fkey, (joinLines (sliceNat newLines fs fe), fs))]⟩
    else exactInnerLoop tsf newLines count fkey fs fe rest st

/-- The `for func_node in node.body` loop of the nested in-class search. -/
def exactFuncLoop (tsf : String) (newLines : List String) (count : Nat)
    (start stop : Nat) :
    List Node → ExactSt → Except ExactSt ExactSt
  | [], st => Except.ok st
  | fn :: rest, st =>
    if (fn.kind = NodeKind.asyncFunctionDef ∨ fn.kind = NodeKind.functionDef)
        ∧ start ≤ fn.lineno ∧ fn.lineno < stop then
      match exactInnerLoop tsf newLines count (fn.lineno, fn.endLineno)
          (fn.lineno - 1) fn.endLineno
          (List.range' (fn.lineno - 1) (fn.endLineno - (fn.lineno - 1))) st with
      | Except.error st2 => Except.error st2
      | Except.ok st2 => exactFuncLoop tsf newLines count start stop rest st2
    else exactFuncLoop tsf newLines count start stop rest st

/-- The `for i in range(start, end)` loop over one walked node's line range:
stripped literal comparison, then either the nested in-class search (query not
a class header, node a `ClassDef`) or the direct yield guarded by the count and
the 0-based `(start, end)` dedup key. -/
def exactLineLoop (tsf : String) (newLines : List String) (count : Nat)
    (node : Node) (start stop : Nat) :
    List Nat → ExactSt → Except ExactSt ExactSt
  | [], st => Except.ok st
  | i :: rest, st =>
    if tsf = pyStrip (getLine newLines i) then
      if pyStartsWith tsf "class " = false ∧ node.kind = NodeKind.classDef then
        match exactFuncLoop tsf newLines count start stop node.body st with
        | Except.error st2 => Except.error st2
        | Except.ok st2 => exactLineLoop tsf newLines count node start stop rest st2
      else
        if st.searched.length = count then Except.error st
        else if (start, stop) ∈ st.searched then
          exactLineLoop tsf newLines count node start stop rest st
        else
          exactLineLoop tsf newLines count node start stop rest
            ⟨(start, stop) :: st.searched,
              st.acc ++ [((start, stop), (joinLines (sliceNat newLines start stop), start))]⟩
    else exactLineLoop tsf newLines count node start stop rest st

/-- The `for node in ast.walk(self.data)` loop of exact mode. -/
def exactWalkLoop (tsf : String) (newLines : List String) (count : Nat) :
    List Node → ExactSt → Except ExactSt ExactSt
  | [], st => Except.ok st
  | n :: rest, st =>
    if n.kind = NodeKind.functionDef ∨ n.kind = NodeKind.asyncFunctionDef
        ∨ n.kind = NodeKind.classDef then
      match exactLineLoop tsf newLines count n (n.lineno - 1) n.endLineno
          (List.range' (n.lineno - 1) (n.endLineno - (n.lineno - 1))) st with
      | Except.error st2 => Except.error st2
      | Except.ok st2 => exactWalkLoop tsf newLines count rest st2
    else exactWalkLoop tsf newLines count rest st

/-- `new_lines = ("\n".join(lines).lstrip().rstrip()).splitlines()`. -/
def exactNewLines (sourceCode : String) : List String :=
  pySplitlines (pyStrip (joinLines (pySplitlines sourceCode)))

/-- Exact-mode run, keeping each yield paired with its dedup key. -/
def exactMatchesKeyed (fuel : Nat) (sourceCode : String) (data : Node)
    (tsf : String) (count : Nat) : List ((Nat × Nat) × (String × Nat)) :=
  (unwrapSt (exactWalkLoop tsf (exactNewLines sourceCode) count
    (walkAux fuel [data]) ⟨[], []⟩)).acc

/-- The matches yielded by exact mode (the keyed run's projection). -/
def exactMatches (fuel : Nat) (sourceCode : String) (data : Node)
    (tsf : String) (count : Nat) : List (String × Nat) :=
  (exactMatchesKeyed fuel sourceCode data tsf count).map Prod.snd

/-! ## Name mode of `parse_data` (lines 154-199) -/

/-- The `for body_item in node.body` scan of one candidate class body: yields
every `FunctionDef`/`AsyncFunctionDef` named `tsf` and bumps the plain match
counter — with *no* count check inside this loop (this is the code as written).
Returns the updated counter and the accumulated matches. -/
def bodyScan (lines : List String) (tsf : String) :
    List Node → Nat → List (String × Nat) → Nat × List (String × Nat)
  | [], searched, acc => (searched, acc)
  | b :: rest, searched, acc =>
    if (b.kind = NodeKind.asyncFunctionDef ∨ b.kind = NodeKind.functionDef)
        ∧ b.name = tsf then
      bodyScan lines tsf rest (searched + 1)
        (acc ++ [(joinLines (sliceNat lines (b.lineno - 1) b.endLineno), b.lineno - 1)])
    else bodyScan lines tsf rest searched acc

/-- The `for node in new_nodes` loop of the class-scoped name search; the
count is checked only between candidate nodes. -/
def classNodesLoop (lines : List String) (tsf : String) (count : Nat) :
    List Node → Nat → List (String × Nat) → List (String × Nat)
  | [], _, acc => acc
  | n :: rest, searched, acc =>
    if searched = count then acc
    else
      classNodesLoop lines tsf count rest
        (bodyScan lines tsf n.body searched acc).1
        (bodyScan lines tsf n.body searched acc).2

/-- The `for function in ast.walk(data)` loop of the unscoped name search. -/
def walkSearchLoop (lines : List String) (tsf : String) (count : Nat) :
    List Node → Nat → List (String × Nat) → List (String × Nat)
  | [], _, acc => acc
  | f :: rest, searched, acc =>
    if searched = count then acc
    else if (f.kind = NodeKind.asyncFunctionDef ∨ f.kind = NodeKind.functionDef
        ∨ f.kind = NodeKind.classDef) ∧ f.name = tsf then
      walkSearchLoop lines tsf count rest (searched + 1)
        (acc ++ [(joinLines (sliceNat lines (f.lineno - 1) f.endLineno), f.lineno - 1)])
    else walkSearchLoop lines tsf count rest searched acc

/-- `ParserV2.parse_data(count, allow_parent_class)` for an engine built from
`source_code`, syntax tree `data`, target `toSearchFor`, enclosing class `cls`
and mode flag `exact`.  The fuel feeds `ast.walk` and the ancestor queue;
`none` reports an exhausted ancestor budget (the Python loop diverging). -/
def parseDataFuel (fuel : Nat) (sourceCode : String) (data : Node)
    (toSearchFor : String) (cls : Option String) (exact : Bool)
    (count : Nat) (allowParentClass : Bool) : Option (List (String × Nat)) :=
  if exact then
    some (exactMatches fuel sourceCode data toSearchFor count)
  else
    match cls with
    | some c =>
      match mapGet (nodeMapping fuel data) c with
      | none => some []
      | some node =>
        match (if allowParentClass then
            getAllParentClassesFuel (nodeMapping fuel data) (pySplitlines sourceCode)
              fuel
              (filterParentClasses (nodeMapping fuel data)
                (getLine (pySplitlines sourceCode) (node.lineno - 1)))
              [node]
          else some [node]) with
        | none => none
        | some newNodes =>
          some (classNodesLoop (pySplitlines sourceCode) toSearchFor count newNodes 0 [])
    | none =>
      some (walkSearchLoop (pySplitlines sourceCode) toSearchFor count
        (walkAux fuel [data]) 0 [])

/-! ## Helper lemmas -/

@[simp] theorem isValueError_ok {α : Type} (x : α) :
    isValueError (Except.ok x) = false := rfl

@[simp] theorem isValueError_valueError {α : Type} (m : String) :
    isValueError (Except.error (PyErr.valueError m) : Except PyErr α) = true := rfl

@[simp] theorem isValueError_keyError {α : Type} :
    isValueError (Except.error PyErr.keyError : Except PyErr α) = false := rfl

@[simp] theorem isValueError_indexError {α : Type} :
    isValueError (Except.error PyErr.indexError : Except PyErr α) = false := rfl

/-! ## Claims about `parse_attributes` -/

/-- Claim C3, counterexample: the dotted-path query `"discordx.foo"` is a
string (not a structured descriptor), is queried with `exact = false`, and has
exactly two dot segments — so it falls under neither of the claim's two cases —
yet `parse_attributes` raises a `ValueError` (from `attributes.remove`). -/
theorem c3_counterexample_discordx :
    isValueError (parseAttributes (PyIndex.str "discordx.foo") false) = true
    ∧ (pyAttrs "discordx.foo").length = 2 := by
  exact ⟨rfl, rfl⟩

/-- Claim C3 (amended): `parse_attributes` raises a `ValueError` exactly when
(1) `exact = true` is combined with a structured descriptor, or — for a string
query with `exact = false` — (2) the first dot segment starts with `"discord"`
but no segment equals `"discord"` (the namespace-strip `list.remove` fails), or
(3) the number of segments remaining after namespace stripping is neither one
nor two.  The error is raised before any search runs (`parse_attributes` never
searches). -/
theorem c3_valueError_characterization (index : PyIndex) (exact : Bool) :
    isValueError (parseAttributes index exact) = c3ErrCond index exact := by
  cases index with
  | dict d =>
    cases exact with
    | true => simp [parseAttributes, c3ErrCond, PyIndex.isDict]
    | false =>
      simp only [parseAttributes, c3ErrCond, Bool.false_eq_true, if_false]
      cases h1 : dictLookup d "function" with
      | some r => simp
      | none =>
        cases h2 : dictLookup d "class" with
        | some r => simp
        | none => simp
  | str s =>
    cases exact with
    | true => simp [parseAttributes, c3ErrCond, PyIndex.isDict]
    | false =>
      by_cases hrf : removeFails s = true
      · simp [parseAttributes, c3ErrCond, hrf]
      · have hrf2 : removeFails s = false := by
          revert hrf; cases removeFails s <;> simp
        by_cases h2 : (strippedAttrs s).length = 2
        · cases hd : (strippedAttrs s).headI.data with
          | nil => simp [parseAttributes, c3ErrCond, hrf2, h2, hd]
          | cons c cs => simp [parseAttributes, c3ErrCond, hrf2, h2, hd]
        · by_cases h1 : (strippedAttrs s).length = 1
          · simp [parseAttributes, c3ErrCond, hrf2, h1, h2]
          · simp [parseAttributes, c3ErrCond, hrf2, h1, h2]

/-- Claim C6: the normalizer's dotted-path resolution — uppercase-first
two-segment path sets the class and target; lowercase-first two-segment path
silently drops the class segment; a single segment sets only the target; a
three-segment path with no known namespace prefix raises a validation
failure. -/
theorem c6_path_heuristics :
    parseAttributes (PyIndex.str "Embed.set_author") false
        = Except.ok ("set_author", some "Embed", false)
    ∧ parseAttributes (PyIndex.str "embed.set_author") false
        = Except.ok ("set_author", none, false)
    ∧ parseAttributes (PyIndex.str "set_author") false
        = Except.ok ("set_author", none, false)
    ∧ isValueError (parseAttributes (PyIndex.str "a.b.c") false) = true := by
  exact ⟨rfl, rfl, rfl, rfl⟩

/-- Claim C10, counterexample: `"discordx.discord.foo"` has a first segment
that starts with `"discord"` without being equal to it, yet `parse_attributes`
does *not* raise: `list.remove` deletes the later `"discord"` segment, so the
query parses to target `"foo"` with no enclosing class. -/
theorem c10_counterexample_inner_discord :
    pyStartsWith "discordx" "discord" = true
    ∧ "discordx" ≠ "discord"
    ∧ parseAttributes (PyIndex.str "discordx.discord.foo") false
        = Except.ok ("foo", none, false) := by
  refine ⟨rfl, by decide, rfl⟩

/-- Claim C10 (amended): for a dotted-path string query whose first segment
starts with `"discord"` and in which *no* segment equals `"discord"` exactly,
`parse_attributes` raises the `ValueError` of the `list.remove` step instead of
stripping the namespace or parsing the path. -/
theorem c10_remove_valueError (s : String)
    (h1 : pyStartsWith (pyAttrs s).headI "discord" = true)
    (h2 : "discord" ∉ pyAttrs s) :
    parseAttributes (PyIndex.str s) false
      = Except.error (PyErr.valueError "list.remove(x): x not in list") := by
  have hrf : removeFails s = true := by simp [removeFails, h1, h2]
  simp [parseAttributes, hrf]

/-- Witness for `c10_remove_valueError` at the concrete query
`"discordx.Class.method"`. -/
theorem c10_remove_valueError_witness :
    parseAttributes (PyIndex.str "discordx.Class.method") false
      = Except.error (PyErr.valueError "list.remove(x): x not in list") :=
  c10_remove_valueError "discordx.Class.method" rfl (by decide)

/-! ## Concrete scenario inputs

Each scenario gives the Python source string and the definition skeleton that
`ast.parse` produces for it (kinds, names, `lineno`, `end_lineno`, and the
definition statements of each body, checked against CPython). -/

/-- Inheritance scenario: `class A` defines `foo`, `class B(A)` does not. -/
def src5 : String :=
  "class A:\n    def foo(self):\n        return 1\nclass B(A):\n    pass"

/-- `def foo` of `src5` (lines 2-3). -/
def nodeFoo : Node := .mk .functionDef "foo" 2 3 []

/-- `class A` of `src5` (lines 1-3). -/
def nodeA5 : Node := .mk .classDef "A" 1 3 [nodeFoo]

/-- `class B(A)` of `src5` (lines 4-5, no definition statements). -/
def nodeB5 : Node := .mk .classDef "B" 4 5 []

/-- Parsed tree of `src5`. -/
def tree5 : Node := .mk .module "" 1 5 [nodeA5, nodeB5]

/-- Duplicate-method scenario: one class body defines `f` twice. -/
def srcC1 : String :=
  "class C:\n    def f(self):\n        pass\n    def f(self):\n        pass"

/-- Parsed tree of `srcC1`: `class C` (lines 1-5) with two `def f` bodies
(lines 2-3 and 4-5). -/
def treeC1 : Node :=
  .mk .module "" 1 5
    [.mk .classDef "C" 1 5
      [.mk .functionDef "f" 2 3 [], .mk .functionDef "f" 4 5 []]]

/-- Exact-mode scenario: `"return 1"` occurs inside a method of a class. -/
def srcC2 : String := "class A:\n    def f(self):\n        return 1"

/-- Parsed tree of `srcC2`: `class A` (lines 1-3) with `def f` (lines 2-3). -/
def treeC2 : Node :=
  .mk .module "" 1 3 [.mk .classDef "A" 1 3 [.mk .functionDef "f" 2 3 []]]

/-- Exact-mode scenario with a column-0 continuation line `foo` inside a
method of a class (a bracketed expression may start a line unindented). -/
def srcC4 : String := "class K:\n    def g(self):\n        x = [\nfoo\n        ]"

/-- Parsed tree of `srcC4`: `class K` (lines 1-5) with `def g` (lines 2-5). -/
def treeC4 : Node :=
  .mk .module "" 1 5 [.mk .classDef "K" 1 5 [.mk .functionDef "g" 2 5 []]]

/-- Line-accounting scenario: a function defined on source lines 10-12. -/
def srcC7 : String :=
  "# 1\n# 2\n# 3\n# 4\n# 5\n# 6\n# 7\n# 8\n# 9\ndef g():\n    x = 1\n    return x"

/-- Parsed tree of `srcC7`: `def g` on lines 10-12. -/
def treeC7 : Node := .mk .module "" 1 12 [.mk .functionDef "g" 10 12 []]

/-- Diamond-inheritance scenario for the parent chain resolver. -/
def srcC9 : String :=
  "class Base: pass\nclass A1(Base): pass\nclass A2(Base): pass\nclass B(A1, A2): pass"

/-- `class Base` of `srcC9` (line 1). -/
def nodeBase : Node := .mk .classDef "Base" 1 1 []

/-- `class A1(Base)` of `srcC9` (line 2). -/
def nodeA1 : Node := .mk .classDef "A1" 2 2 []

/-- `class A2(Base)` of `srcC9` (line 3). -/
def nodeA2 : Node := .mk .classDef "A2" 3 3 []

/-- `class B(A1, A2)` of `srcC9` (line 4). -/
def nodeB9 : Node := .mk .classDef "B" 4 4 []

/-- Parsed tree of `srcC9`. -/
def treeC9 : Node := .mk .module "" 1 4 [nodeBase, nodeA1, nodeA2, nodeB9]

/-! ## Claims about `parse_data` settled on concrete inputs -/

/-- Claim C1, evaluation at the failing input: in name mode with an enclosing
class whose body defines the target twice, `parse_data(count=1)` yields *two*
matches — the plain match counter is only consulted between candidate class
nodes, not between the yields inside one class body, so the sequence exceeds
`count`.  (The code's own docstring promises `count` is "how many occurrences
to yield".) -/
theorem c1_count_overflow :
    parseDataFuel 20 srcC1 treeC1 "f" (some "C") false 1 true
      = some [("    def f(self):\n        pass", 1),
              ("    def f(self):\n        pass", 3)]
    ∧ (parseDataFuel 20 srcC1 treeC1 "f" (some "C") false 1 true).map List.length
      = some 2 := by
  exact ⟨rfl, rfl⟩

/-- Claim C2: exact-mode widening.  First conjunct — the claim's scenario: the
query `"return 1"`, which occurs (indented) inside method `f` of `class A`, is
answered with the enclosing method's full text and 0-based start line 1, not
the bare line.  Second conjunct — the nested in-class search itself: when a
direct function child's line range contains the query as a literal
(unstripped) line, the engine yields that function's full text and start line
from the class-children iteration (here the column-0 continuation line `foo`
inside `def g` of `class K`; with `count = 1` the generator returns before the
walk ever reaches `def g` directly, so the single match is produced by the
iteration over the class's children). -/
theorem c2_exact_mode_widens_to_method :
    parseDataFuel 20 srcC2 treeC2 "return 1" none true 1 true
      = some [("    def f(self):\n        return 1", 1)]
    ∧ parseDataFuel 20 srcC4 treeC4 "foo" none true 1 true
      = some [("    def g(self):\n        x = [\nfoo\n        ]", 1)] := by
  exact ⟨rfl, rfl⟩

/-- Claim C4, counterexample: querying the column-0 line `foo` of `srcC4` in
exact mode with `count = 2` yields the *same* node (`def g`, lines 2-5) twice
with the identical `(text, start_line)` pair: the nested in-class search
records the 1-based key `(2, 5)` while the direct yield records the 0-based
key `(1, 5)`, so the dedup set does not recognise the repeat. -/
theorem c4_counterexample_double_yield :
    parseDataFuel 20 srcC4 treeC4 "foo" none true 2 true
      = some [("    def g(self):\n        x = [\nfoo\n        ]", 1),
              ("    def g(self):\n        x = [\nfoo\n        ]", 1)]
    ∧ exactMatchesKeyed 20 srcC4 treeC4 "foo" 2
      = [((2, 5), ("    def g(self):\n        x = [\nfoo\n        ]", 1)),
         ((1, 5), ("    def g(self):\n        x = [\nfoo\n        ]", 1))] := by
  exact ⟨rfl, rfl⟩

/-- Claim C5: with ancestor search enabled, querying `target="foo"`,
`class="B"` on `src5` yields exactly one match, `A`'s `foo` (its full text and
0-based start line); with ancestor search disabled it yields the empty
sequence. -/
theorem c5_ancestor_scoping :
    parseDataFuel 20 src5 tree5 "foo" (some "B") false 1 true
      = some [("    def foo(self):\n        return 1", 1)]
    ∧ parseDataFuel 20 src5 tree5 "foo" (some "B") false 1 false
      = some [] := by
  exact ⟨rfl, rfl⟩

/-! ## Exact-mode dedup invariant (claim C4) -/

/-- The dedup keys recorded with the yields so far. -/
def keysOf (st : ExactSt) : List (Nat × Nat) := st.acc.map Prod.fst

/-- Exact-mode loop invariant: the recorded dedup keys are pairwise distinct,
and every recorded key is a member of `already_searched`. -/
def stInv (st : ExactSt) : Prop :=
  (keysOf st).Nodup ∧ ∀ k ∈ keysOf st, k ∈ st.searched

theorem stInv_empty : stInv ⟨[], []⟩ := by
  constructor
  · simp [keysOf]
  · intro k hk
    simp [keysOf] at hk

theorem stInv_add (st : ExactSt) (k : Nat × Nat) (m : String × Nat)
    (h : stInv st) (hk : k ∉ st.searched) :
    stInv ⟨k :: st.searched, st.acc ++ [(k, m)]⟩ := by
  obtain ⟨h1, h2⟩ := h
  have hknot : k ∉ keysOf st := fun hmem => hk (h2 k hmem)
  constructor
  · simp only [keysOf, List.map_append, List.map_cons, List.map_nil]
    rw [List.nodup_append]
    refine ⟨h1, List.nodup_singleton k, ?_⟩
    intro a ha hb
    rw [List.mem_singleton] at hb
    subst hb
    exact hknot ha
  · intro k2 hk2
    simp only [keysOf, List.map_append, List.map_cons, List.map_nil,
      List.mem_append, List.mem_singleton] at hk2
    rcases hk2 with h | h
    · exact List.mem_cons_of_mem _ (h2 k2 h)
    · subst h
      exact List.mem_cons_self _ _

theorem exactInnerLoop_inv (tsf : String) (newLines : List String) (count : Nat)
    (fkey : Nat × Nat) (fs fe : Nat) :
    ∀ (is : List Nat) (st : ExactSt), stInv st →
      stInv (unwrapSt (exactInnerLoop tsf newLines count fkey fs fe is st))
  | [], st, h => by simpa [exactInnerLoop, unwrapSt] using h
  | i :: rest, st, h => by
    rw [exactInnerLoop]
    split_ifs with hc hm hl
    · simpa [unwrapSt] using h
    · exact exactInnerLoop_inv tsf newLines count fkey fs fe rest st h
    · exact exactInnerLoop_inv tsf newLines count fkey fs fe rest _
        (stInv_add st fkey _ h hm)
    · exact exactInnerLoop_inv tsf newLines count fkey fs fe rest st h

theorem exactFuncLoop_inv (tsf : String) (newLines : List String) (count : Nat)
    (start stop : Nat) :
    ∀ (body : List Node) (st : ExactSt), stInv st →
      stInv (unwrapSt (exactFuncLoop tsf newLines count start stop body st))
  | [], st, h => by simpa [exactFuncLoop, unwrapSt] using h
  | fn :: rest, st, h => by
    rw [exactFuncLoop]
    split_ifs with hg
    · have hin := exactInnerLoop_inv tsf newLines count (fn.lineno, fn.endLineno)
        (fn.lineno - 1) fn.endLineno
        (List.range' (fn.lineno - 1) (fn.endLineno - (fn.lineno - 1))) st h
      cases hres : exactInnerLoop tsf newLines count (fn.lineno, fn.endLineno)
          (fn.lineno - 1) fn.endLineno
          (List.range' (fn.lineno - 1) (fn.endLineno - (fn.lineno - 1))) st with
      | error st2 =>
        rw [hres] at hin
        simpa [unwrapSt] using hin
      | ok st2 =>
        rw [hres] at hin
        simp only [unwrapSt] at hin
        exact exactFuncLoop_inv tsf newLines count start stop rest st2 hin
    · exact exactFuncLoop_inv tsf newLines count start stop rest st h

theorem exactLineLoop_inv (tsf : String) (newLines : List String) (count : Nat)
    (node : Node) (start stop : Nat) :
    ∀ (is : List Nat) (st : ExactSt), stInv st →
      stInv (unwrapSt (exactLineLoop tsf newLines count node start stop is st))
  | [], st, h => by simpa [exactLineLoop, unwrapSt] using h
  | i :: rest, st, h => by
    rw [exactLineLoop]
    split_ifs with h1 h2 h3 h4
    · have hfl := exactFuncLoop_inv tsf newLines count start stop node.body st h
      cases hres : exactFuncLoop tsf newLines count start stop node.body st with
      | error st2 =>
        rw [hres] at hfl
        simpa [unwrapSt] using hfl
      | ok st2 =>
        rw [hres] at hfl
        simp only [unwrapSt] at hfl
        exact exactLineLoop_inv tsf newLines count node start stop rest st2 hfl
    · simpa [unwrapSt] using h
    · exact exactLineLoop_inv tsf newLines count node start stop rest st h
    · exact exactLineLoop_inv tsf newLines count node start stop rest _
        (stInv_add st (start, stop) _ h h4)
    · exact exactLineLoop_inv tsf newLines count node start stop rest st h

theorem exactWalkLoop_inv (tsf : String) (newLines : List String) (count : Nat) :
    ∀ (nodes : List Node) (st : ExactSt), stInv st →
      stInv (unwrapSt (exactWalkLoop tsf newLines count nodes st))
  | [], st, h => by simpa [exactWalkLoop, unwrapSt] using h
  | n :: rest, st, h => by
    rw [exactWalkLoop]
    split_ifs with hg
    · have hll := exactLineLoop_inv tsf newLines count n (n.lineno - 1) n.endLineno
        (List.range' (n.lineno - 1) (n.endLineno - (n.lineno - 1))) st h
      cases hres : exactLineLoop tsf newLines count n (n.lineno - 1) n.endLineno
          (List.range' (n.lineno - 1) (n.endLineno - (n.lineno - 1))) st with
      | error st2 =>
        rw [hres] at hll
        simpa [unwrapSt] using hll
      | ok st2 =>
        rw [hres] at hll
        simp only [unwrapSt] at hll
        exact exactWalkLoop_inv tsf newLines count rest st2 hll
    · exact exactWalkLoop_inv tsf newLines count rest st h

/-- Claim C4 (amended): within one exact-mode session no two yields share the
same *recorded* dedup key — where the nested in-class search records the
1-based pair `(func_node.lineno, func_node.end_lineno)` while the direct yield
records the 0-based pair `(node.lineno - 1, node.end_lineno)`.  Because the
two encodings differ by one in the first component, this per-key uniqueness
does not prevent one underlying node from being yielded once by each branch
(see the counterexample). -/
theorem c4_dedup_keys_nodup (fuel : Nat) (src : String) (data : Node)
    (tsf : String) (count : Nat) :
    ((exactMatchesKeyed fuel src data tsf count).map Prod.fst).Nodup :=
  (exactWalkLoop_inv tsf (exactNewLines src) count (walkAux fuel [data])
    ⟨[], []⟩ stInv_empty).1

/-! ## Name-mode match shape (claim C7) -/

/-- Line accounting for one name-mode match: it is the pair made of the joined
source lines `lineno .. end_lineno` (1-based, inclusive) of a matched
definition node together with the 0-based start line `lineno - 1`. -/
def matchFromNode (lines : List String) (tsf : String) (m : String × Nat) : Prop :=
  ∃ f : Node,
    (f.kind = NodeKind.functionDef ∨ f.kind = NodeKind.asyncFunctionDef
      ∨ f.kind = NodeKind.classDef)
    ∧ f.name = tsf
    ∧ m = (joinLines (sliceNat lines (f.lineno - 1) f.endLineno), f.lineno - 1)

theorem bodyScan_shape (lines : List String) (tsf : String) :
    ∀ (body : List Node) (searched : Nat) (acc : List (String × Nat)),
      (∀ m ∈ acc, matchFromNode lines tsf m) →
      ∀ m ∈ (bodyScan lines tsf body searched acc).2, matchFromNode lines tsf m
  | [], searched, acc, hacc => by simpa [bodyScan] using hacc
  | b :: rest, searched, acc, hacc => by
    rw [bodyScan]
    split_ifs with hb
    · refine bodyScan_shape lines tsf rest (searched + 1) _ ?_
      intro m hm
      rw [List.mem_append] at hm
      rcases hm with hmem | hmem
      · exact hacc m hmem
      · rw [List.mem_singleton] at hmem
        subst hmem
        refine ⟨b, ?_, hb.2, rfl⟩
        rcases hb.1 with hk | hk
        · exact Or.inr (Or.inl hk)
        · exact Or.inl hk
    · exact bodyScan_shape lines tsf rest searched acc hacc

theorem classNodesLoop_shape (lines : List String) (tsf : String) (count : Nat) :
    ∀ (nodes : List Node) (searched : Nat) (acc : List (String × Nat)),
      (∀ m ∈ acc, matchFromNode lines tsf m) →
      ∀ m ∈ classNodesLoop lines tsf count nodes searched acc,
        matchFromNode lines tsf m
  | [], searched, acc, hacc => by simpa [classNodesLoop] using hacc
  | n :: rest, searched, acc, hacc => by
    rw [classNodesLoop]
    split_ifs with hc
    · exact hacc
    · exact classNodesLoop_shape lines tsf count rest _ _
        (bodyScan_shape lines tsf n.body searched acc hacc)

theorem walkSearchLoop_shape (lines : List String) (tsf : String) (count : Nat) :
    ∀ (nodes : List Node) (searched : Nat) (acc : List (String × Nat)),
      (∀ m ∈ acc, matchFromNode lines tsf m) →
      ∀ m ∈ walkSearchLoop lines tsf count nodes searched acc,
        matchFromNode lines tsf m
  | [], searched, acc, hacc => by simpa [walkSearchLoop] using hacc
  | f :: rest, searched, acc, hacc => by
    rw [walkSearchLoop]
    split_ifs with hc hf
    · exact hacc
    · refine walkSearchLoop_shape lines tsf count rest (searched + 1) _ ?_
      intro m hm
      rw [List.mem_append] at hm
      rcases hm with hmem | hmem
      · exact hacc m hmem
      · rw [List.mem_singleton] at hmem
        subst hmem
        refine ⟨f, ?_, hf.2, rfl⟩
        rcases hf.1 with hk | hk | hk
        · exact Or.inr (Or.inl hk)
        · exact Or.inl hk
        · exact Or.inr (Or.inr hk)
    · exact walkSearchLoop_shape lines tsf count rest searched acc hacc

/-- Claim C7: in name mode every yielded match is, for some matched definition
node starting at 1-based line `L` with last line `E` (so the exclusive slice
bound is `M = E + 1`), the pair of the joined source lines `L .. E` (1-based,
i.e. 0-based indices `L-1 .. M-2`) and the 0-based start line `L - 1`; in
particular a function on source lines 10-12 yields start line 9 and the joined
text of lines 10, 11 and 12. -/
theorem c7_line_accounting :
    (∀ (fuel : Nat) (src : String) (data : Node) (tsf : String)
       (cls : Option String) (count : Nat) (ap : Bool) (r : List (String × Nat)),
       parseDataFuel fuel src data tsf cls false count ap = some r →
       ∀ m ∈ r, matchFromNode (pySplitlines src) tsf m)
    ∧ parseDataFuel 20 srcC7 treeC7 "g" none false 1 true
      = some [("def g():\n    x = 1\n    return x", 9)] := by
  constructor
  · intro fuel src data tsf cls count ap r hr m hm
    cases cls with
    | none =>
      simp only [parseDataFuel, Bool.false_eq_true, if_false, Option.some.injEq] at hr
      subst hr
      refine walkSearchLoop_shape _ _ _ _ _ _ ?_ m hm
      intro m2 hm2
      exact absurd hm2 (List.not_mem_nil m2)
    | some c =>
      simp only [parseDataFuel, Bool.false_eq_true, if_false] at hr
      cases hmg : mapGet (nodeMapping fuel data) c with
      | none =>
        rw [hmg] at hr
        simp only [Option.some.injEq] at hr
        subst hr
        exact absurd hm (List.not_mem_nil m)
      | some node =>
        rw [hmg] at hr
        cases ap with
        | true =>
          simp only [if_true] at hr
          cases hnn : getAllParentClassesFuel (nodeMapping fuel data)
              (pySplitlines src) fuel
              (filterParentClasses (nodeMapping fuel data)
                (getLine (pySplitlines src) (node.lineno - 1))) [node] with
          | none =>
            rw [hnn] at hr
            exact absurd hr (by simp)
          | some newNodes =>
            rw [hnn] at hr
            simp only [Option.some.injEq] at hr
            subst hr
            refine classNodesLoop_shape _ _ _ _ _ _ ?_ m hm
            intro m2 hm2
            exact absurd hm2 (List.not_mem_nil m2)
        | false =>
          simp only [Bool.false_eq_true, if_false, Option.some.injEq] at hr
          subst hr
          refine classNodesLoop_shape _ _ _ _ _ _ ?_ m hm
          intro m2 hm2
          exact absurd hm2 (List.not_mem_nil m2)
  · rfl

/-- Witness for `c7_line_accounting`: the concrete match of the lines-10-12
scenario has the claimed shape. -/
theorem c7_line_accounting_witness :
    matchFromNode (pySplitlines srcC7) "g" ("def g():\n    x = 1\n    return x", 9) :=
  c7_line_accounting.1 20 srcC7 treeC7 "g" none 1 true
    [("def g():\n    x = 1\n    return x", 9)] (by rfl)
    ("def g():\n    x = 1\n    return x", 9) (by simp)

/-! ## Silent resolution miss (claim C8) -/

/-- Claim C8: in name mode, an enclosing class name that is not a key of the
node mapping makes `parse_data` yield the empty match sequence — no exception,
just no matches (the model's only error channel, the ancestor-budget `none`,
is not even reached: the branch returns before any ancestor search). -/
theorem c8_missing_class_silent_empty (fuel : Nat) (src : String) (data : Node)
    (tsf : String) (c : String) (count : Nat) (ap : Bool)
    (h : mapGet (nodeMapping fuel data) c = none) :
    parseDataFuel fuel src data tsf (some c) false count ap = some [] := by
  simp [parseDataFuel, h]

/-- Witness for `c8_missing_class_silent_empty`: querying `src5` with the
unknown enclosing class `"Zzz"` yields the empty sequence. -/
theorem c8_missing_class_silent_empty_witness :
    parseDataFuel 20 src5 tree5 "foo" (some "Zzz") false 3 true = some [] :=
  c8_missing_class_silent_empty 20 src5 tree5 "foo" "Zzz" 3 true (by rfl)

/-! ## Parent chain resolver (claim C9) -/

/-- Claim C9: `get_all_parent_classes` returns its accumulator — seeded by the
caller with the original class node — as a prefix, followed by the resolved
ancestor nodes in breadth-first discovery order (first conjunct: the result
always extends the accumulator, in order).  On the diamond `B(A1, A2)` with
`A1(Base)` and `A2(Base)`, the result is `[B, A1, A2, Base, Base]`: BFS order,
with `Base` appearing twice because duplicates across multiple inheritance
paths are not suppressed (second conjunct).  Each step extracts base names
textually from the header line — substring between the first `(` and the last
`)`, split on `", "`, keeping only Entity-Index keys (third conjunct). -/
theorem c9_parent_chain_bfs :
    (∀ (mapping : List (String × Node)) (lines : List String) (fuel : Nat)
       (q : List String) (acc r : List Node),
       getAllParentClassesFuel mapping lines fuel q acc = some r →
       ∃ t, r = acc ++ t)
    ∧ getAllParentClassesFuel (nodeMapping 20 treeC9) (pySplitlines srcC9) 20
        ["A1", "A2"] [nodeB9]
      = some [nodeB9, nodeA1, nodeA2, nodeBase, nodeBase]
    ∧ filterParentClasses (nodeMapping 20 treeC9) (getLine (pySplitlines srcC9) 3)
      = ["A1", "A2"] := by
  refine ⟨?_, rfl, rfl⟩
  intro mapping lines fuel
  induction fuel with
  | zero =>
    intro q acc r h
    cases q with
    | nil =>
      simp only [getAllParentClassesFuel, Option.some.injEq] at h
      subst h
      exact ⟨[], by simp⟩
    | cons a as => simp [getAllParentClassesFuel] at h
  | succ fuel ih =>
    intro q acc r h
    cases q with
    | nil =>
      simp only [getAllParentClassesFuel, Option.some.injEq] at h
      subst h
      exact ⟨[], by simp⟩
    | cons sub queue =>
      rw [getAllParentClassesFuel] at h
      cases hmg : mapGet mapping sub with
      | none =>
        rw [hmg] at h
        exact ih queue acc r h
      | some n =>
        rw [hmg] at h
        obtain ⟨t, ht⟩ := ih _ _ r h
        refine ⟨[n] ++ t, ?_⟩
        rw [ht]
        simp

/-- Witness for `c9_parent_chain_bfs`: the diamond result extends the seeded
accumulator `[B]`. -/
theorem c9_parent_chain_bfs_witness :
    ∃ t, [nodeB9, nodeA1, nodeA2, nodeBase, nodeBase] = [nodeB9] ++ t :=
  c9_parent_chain_bfs.1 (nodeMapping 20 treeC9) (pySplitlines srcC9) 20
    ["A1", "A2"] [nodeB9] [nodeB9, nodeA1, nodeA2, nodeBase, nodeBase] (by rfl)

end Dpy
